import Mathlib

/-!
Verification of the Optimasol coordination core against its specification.

Shallow embedding of the relevant source modules:
* `src/optimasol/drivers/router_smart_electromation/driver.py` (`SmartEMDriver`)
* `src/optimasol/core/client_model.py` (`Client`)
* `src/optimasol/core/all_clients.py` (`AllClients`)
* `src/optimasol/main.py` (`_spawn_periodic_task`)

Python floats appearing only in exact comparisons and scaling (decision
ratios, task periods) are modelled as rationals; geographic coordinates and
distances, which flow through trigonometric functions, are modelled as reals.
Python exceptions are modelled as explicit error results, and methods that
mutate `self` are modelled in state-passing style, returning the updated
object together with the error (the pre-state is returned unchanged on the
error paths, which is faithful because the Python methods raise before any
mutation).
-/

set_option autoImplicit false

/-- A time-indexed numeric series (the pandas DataFrame payloads handled by
the core are opaque to it: only presence/absence and dictionary keying
matter to the claims).  Timestamps are modelled in seconds. -/
abbrev Forecast := List (Nat × ℚ)

/-- Geographic position of an installation, from the external
`weather_manager` client profile; only latitude/longitude are read by the
core (`all_clients.py`, `_closest_leader`). -/
structure Position where
  latitude : ℝ
  longitude : ℝ

/-- The slice of the external `weather_manager.Client` profile the core
reads: its position.  The installation parameters are opaque to the core. -/
structure ClientWeather where
  position : Position

/-! ## Reference driver: `SmartEMDriver`
(`drivers/router_smart_electromation/driver.py`)

The MQTT transport is external; `send_decision` is modelled as a function
from the driver state and the (dynamically typed) argument to the unchanged
driver state together with either an error (a raised Python exception) or
the list of publishes performed.  The source never assigns `self.connexion`
inside `send_decision` or `_safe_publish`, so returning the input state is
the faithful translation. -/

/-- A dynamically typed Python argument to `send_decision`: a number
(`int`/`float`) or a non-numeric value such as a string. -/
inductive PyVal where
  | num (x : ℚ)
  | str (s : String)
deriving DecidableEq

/-- One MQTT publish performed by the driver: a string payload (mode
commands on `{serial}/SETMODE`) or a numeric payload (dimmer values on
`{serial}/DIMMER1`). -/
inductive Publish where
  | pubStr (topic : String) (payload : String)
  | pubNum (topic : String) (value : ℚ)
deriving DecidableEq

/-- Python exceptions raised by `send_decision`. -/
inductive SendError where
  | typeError
  | valueError
deriving DecidableEq

/-- The reference driver state read by the claims: the device serial and
the connection flag (`self.connexion`). -/
structure SmartEMDriver where
  serial : String
  connexion : Bool
deriving DecidableEq

/-- `SmartEMDriver.send_decision` (driver.py:167-221).  Mirrors the source
order: connection check first (silent return, no publish), then the
`isinstance` type check (`TypeError`), then the range check (`ValueError`),
then the three-way encoding with `s2_mode = "1"`. -/
def SmartEMDriver.send_decision (d : SmartEMDriver) (decision : PyVal) :
    SmartEMDriver × Except SendError (List Publish) :=
  if d.connexion = false then (d, Except.ok [])
  else
    match decision with
    | PyVal.str _ => (d, Except.error SendError.typeError)
    | PyVal.num x =>
      if x > 1 ∨ x < 0 then (d, Except.error SendError.valueError)
      else
        let s2_mode := "1"
        if x = 0 then
          (d, Except.ok [Publish.pubStr (d.serial ++ "/SETMODE") (s2_mode ++ "0")])
        else if x = 1 then
          (d, Except.ok [Publish.pubStr (d.serial ++ "/SETMODE") (s2_mode ++ "2")])
        else
          let dimmer_value := x * 100
          (d, Except.ok [Publish.pubStr (d.serial ++ "/SETMODE") (s2_mode ++ "4"),
                         Publish.pubNum (d.serial ++ "/DIMMER1") dimmer_value])

/-- The serialized driver configuration: the Python dict
`{"serial_number": ...}`, with the single optional key modelled
explicitly (absence of the key is `kwargs.get` returning `None`). -/
structure DriverConfig where
  serial_number : Option String
deriving DecidableEq

/-- `SmartEMDriver.device_to_dict` (driver.py:96-113): serializes only the
serial number. -/
def SmartEMDriver.device_to_dict (d : SmartEMDriver) : DriverConfig :=
  { serial_number := some d.serial }

/-- `SmartEMDriver.__init__` (driver.py:57-94): reads
`kwargs.get('serial_number')` and raises `ValueError` when it is missing,
non-string or falsy (the empty string).  A fresh driver starts
disconnected (`self.connexion = False`). -/
def SmartEMDriver.init (kwargs : DriverConfig) : Except String SmartEMDriver :=
  match kwargs.serial_number with
  | none => Except.error "Le numéro de série est requis (str)."
  | some s =>
    if s = "" then Except.error "Le numéro de série est requis (str)."
    else Except.ok { serial := s, connexion := false }

/-- `SmartEMDriver.dict_to_device` (driver.py:115-137): `cls(**data)`. -/
def SmartEMDriver.dict_to_device (data : DriverConfig) : Except String SmartEMDriver :=
  SmartEMDriver.init data

/-! ## Endpoints: `Client` (`core/client_model.py`) -/

/-- `Client` (client_model.py).  `client_engine` is the external
`optimiser_engine.Client` profile, opaque to the core; the driver is the
reference driver.  The dynamic fields start as `None` and are overwritten
by the driver callbacks. -/
structure Client where
  client_id : Int
  client_engine : Unit
  client_weather : ClientWeather
  driver : SmartEMDriver
  last_temperature : Option ℝ
  last_temperature_time : Option Nat
  last_production : Option ℝ
  last_production_time : Option Nat
  last_power : Option ℝ
  last_power_time : Option Nat
  production_forecast : Option Forecast

/-- `Client.is_ready` (client_model.py:195-206):
`last_temperature is not None and production_forecast is not None`. -/
def Client.is_ready (c : Client) : Bool :=
  c.last_temperature.isSome && c.production_forecast.isSome

/-- Observable actions of one `Client.process()` tick: the call into the
external solver (`decision()` / `OptimizerService.trajectory_of_client`)
and the call to `driver.send_decision`. -/
inductive TickEffect where
  | solverCall
  | driverSend (decision : ℚ)
deriving DecidableEq

/-- `Client.process` (client_model.py:208-237).  The external solver is a
parameter: `solver` is the outcome of `decision()`'s call into
`OptimizerService` — either a raised exception or the trajectory's decision
list.  When not ready, the method returns before any call.  When ready,
the solver is invoked; if it raises, or the trajectory is empty
(`get_decisions()[0]` raises `IndexError`), the exception is caught by the
`try`/`except` and the driver is never called; otherwise the first decision
is sent to the driver (whose own errors are also caught, after the call). -/
def Client.process (c : Client) (solver : Except Unit (List ℚ)) : List TickEffect :=
  if c.is_ready = false then []
  else
    match solver with
    | Except.error _ => [TickEffect.solverCall]
    | Except.ok trajectory =>
      match trajectory with
      | [] => [TickEffect.solverCall]
      | d :: _ => [TickEffect.solverCall, TickEffect.driverSend d]

/-! ## Fleet registry: `AllClients` (`core/all_clients.py`) -/

/-- The error raised by `AllClients.add` on a duplicate id
(all_clients.py:12-18). -/
inductive AddError where
  | clientAlreadyExists
deriving DecidableEq

/-- `AllClients` (all_clients.py:20-47).  `weather_infos` is the forecast
cache: `None` until the first refresh, then a dict keyed by leader id
(modelled as a key-unique association list in insertion order, which is
exactly a Python dict's observable behaviour). -/
structure AllClients where
  list_of_clients : List Client
  clients_with_leaders : List (Client × Client)
  leaders : List Client
  weather_infos : Option (List (Int × Forecast))

/-- Default of the class attribute `AllClients.MINIMAL_DISTANCE`
(all_clients.py:35); the operator-configured value is passed explicitly to
the functions below. -/
def AllClients.MINIMAL_DISTANCE : ℝ := 1.0

/-- `math.radians` : degrees to radians. -/
noncomputable def radians (x : ℝ) : ℝ := x * Real.pi / 180

/-- `math.atan2 y x`, i.e. the argument of the complex number `x + i y`. -/
noncomputable def atan2 (y x : ℝ) : ℝ := Complex.arg ⟨x, y⟩

/-- The haversine great-circle distance `dist_km` from `_closest_leader`
(all_clients.py:185-195): distance in kilometres from the client being
registered to a candidate leader, Earth radius 6371 km. -/
noncomputable def dist_km (client leader : Client) : ℝ :=
  let R : ℝ := 6371
  let lat1 := client.client_weather.position.latitude
  let lon1 := client.client_weather.position.longitude
  let lat2 := leader.client_weather.position.latitude
  let lon2 := leader.client_weather.position.longitude
  let phi1 := radians lat1
  let phi2 := radians lat2
  let dphi := radians (lat2 - lat1)
  let dl := radians (lon2 - lon1)
  let a := Real.sin (dphi / 2) ^ 2 + Real.cos phi1 * Real.cos phi2 * Real.sin (dl / 2) ^ 2
  2 * R * atan2 (Real.sqrt a) (Real.sqrt (1 - a))

/-- Python's `min(candidates, key=...)` over a non-empty list, expressed as
a left fold from the first element: the current best is replaced only when
the new key is strictly smaller, so on equal keys the earliest element
wins, exactly as in CPython. -/
noncomputable def pickMin {α : Type} (f : α → ℝ) : α → List α → α
  | b, [] => b
  | b, y :: ys => pickMin f (if f y < f b then y else b) ys

/-- `AllClients._closest_leader` (all_clients.py:160-213): `none` when
there are no leaders; otherwise the minimum-distance leader when its
distance is strictly below the threshold `θ` (the runtime value of
`MINIMAL_DISTANCE`), else `none`. -/
noncomputable def AllClients.closest_leader (θ : ℝ) (s : AllClients) (c : Client) :
    Option Client :=
  match s.leaders with
  | [] => none
  | l :: ls =>
    let best := pickMin (fun x => dist_km c x) l ls
    if dist_km c best < θ then some best else none

/-- `AllClients.add` (all_clients.py:84-120) in state-passing style.  The
`isinstance(client, Client)` guard is enforced by typing.  The duplicate-id
loop raises `ClientAlreadyExists` before any mutation, so the pre-state is
returned unchanged; otherwise the client is appended, paired with its
closest leader, or made its own leader when none is close enough. -/
noncomputable def AllClients.add (θ : ℝ) (s : AllClients) (c : Client) :
    AllClients × Option AddError :=
  if s.list_of_clients.any (fun clt => clt.client_id == c.client_id) then
    (s, some AddError.clientAlreadyExists)
  else
    match s.closest_leader θ c with
    | none =>
      ({ s with list_of_clients := s.list_of_clients ++ [c],
                clients_with_leaders := s.clients_with_leaders ++ [(c, c)],
                leaders := s.leaders ++ [c] }, none)
    | some closest =>
      ({ s with list_of_clients := s.list_of_clients ++ [c],
                clients_with_leaders := s.clients_with_leaders ++ [(c, closest)] }, none)

/-- Python dict assignment `dico[k] = v` on an insertion-ordered,
key-unique association list: an existing key keeps its position and gets
the new value, a new key is appended. -/
def dictInsert (d : List (Int × Forecast)) (k : Int) (v : Forecast) :
    List (Int × Forecast) :=
  if d.any (fun p => p.1 == k) then
    d.map (fun p => if p.1 == k then (k, v) else p)
  else d ++ [(k, v)]

/-- `datetime.now().date()` at second resolution: the current calendar
day, i.e. the floor of the epoch time in days.  Times are non-negative. -/
def pydate (now : Nat) : Nat := now / 86400

/-- The fetch window computed by `AllClients.update_forecasts`
(all_clients.py:228-229): `today = datetime.now().date()` and
`end_date = today + timedelta(days=2)` — a pair of calendar dates, in
days. -/
def forecast_window (now : Nat) : Nat × Nat := (pydate now, pydate now + 2)

/-- `AllClients.update_forecasts` (all_clients.py:215-241).  The external
weather library is the parameter `fetch`: the outcome of
`get_forecast_for_client(leader.client_weather, today, end_date)` for a
given leader and window (`none` models a raised exception).  Each leader is
fetched inside its own `try`/`except`: a failure only skips that leader's
dict entry.  The fresh dict replaces `weather_infos` at the end. -/
def AllClients.update_forecasts (now : Nat) (fetch : Client → Nat → Nat → Option Forecast)
    (s : AllClients) : AllClients :=
  let today := (forecast_window now).1
  let end_date := (forecast_window now).2
  let dico := s.leaders.foldl
    (fun d leader =>
      match fetch leader today end_date with
      | some forecast => dictInsert d leader.client_id forecast
      | none => d) []
  { s with weather_infos := some dico }

/-! ## Orchestrator: `_spawn_periodic_task` (`main.py:152-171`)

Time is modelled in (rational) seconds on the monotonic clock.  One loop
iteration starts at `t`, runs `func()` for `elapsed` seconds, computes
`wait_time = max(interval_seconds - elapsed, 0)` and blocks on
`stopper.wait(wait_time)`; the wait returns as soon as the shared stop
event is set.  `stopAt` is the instant the stop event is set (`none` when
it never is). -/

/-- `wait_time = max(interval_seconds - elapsed, 0)` (main.py:166). -/
def taskSleep (interval_seconds elapsed : ℚ) : ℚ := max (interval_seconds - elapsed) 0

/-- Duration actually spent in `stopper.wait(timeout)` when the stop event
fires `untilSet` seconds from now (never, if negative: the wait returns
immediately on an already-set event; `timeout` whole seconds otherwise). -/
def eventWait (timeout untilSet : ℚ) : ℚ := min timeout (max untilSet 0)

/-- Whether `stopper.is_set()` at instant `t`. -/
def stopSet (stopAt : Option ℚ) (t : ℚ) : Bool :=
  match stopAt with
  | none => false
  | some s => decide (s ≤ t)

/-- The instant of the next `while` check after an iteration that started
at `t` and executed for `e` seconds (main.py:159-167). -/
def runnerNextCheck (interval_seconds t e : ℚ) (stopAt : Option ℚ) : ℚ :=
  match stopAt with
  | none => t + e + taskSleep interval_seconds e
  | some s => t + e + eventWait (taskSleep interval_seconds e) (s - (t + e))

/-- Start instants of the iterations actually run by `_runner`
(main.py:158-167), given the execution durations of the successive `func()`
calls (the list's length bounds the number of iterations observed). -/
def runnerStarts (interval_seconds : ℚ) (stopAt : Option ℚ) :
    List ℚ → ℚ → List ℚ
  | [], _ => []
  | e :: es, t =>
    if stopSet stopAt t then []
    else t :: runnerStarts interval_seconds stopAt es (runnerNextCheck interval_seconds t e stopAt)

/-! ## Claims about the reference driver -/

/-- C4: for every connected reference driver and every valid ratio in
[0,1], `send_decision` publishes mode command "10" on `{serial}/SETMODE`
for ratio 0, "12" for ratio 1, and otherwise "14" on `{serial}/SETMODE`
followed by a separate publish of `ratio * 100` on `{serial}/DIMMER1`. -/
theorem send_decision_encoding (d : SmartEMDriver) (x : ℚ)
    (hc : d.connexion = true) (h0 : 0 ≤ x) (h1 : x ≤ 1) :
    (x = 0 → d.send_decision (PyVal.num x) =
      (d, Except.ok [Publish.pubStr (d.serial ++ "/SETMODE") "10"]))
    ∧ (x = 1 → d.send_decision (PyVal.num x) =
      (d, Except.ok [Publish.pubStr (d.serial ++ "/SETMODE") "12"]))
    ∧ (x ≠ 0 → x ≠ 1 → d.send_decision (PyVal.num x) =
      (d, Except.ok [Publish.pubStr (d.serial ++ "/SETMODE") "14",
                     Publish.pubNum (d.serial ++ "/DIMMER1") (x * 100)])) := by
  have hrange : ¬ (x > 1 ∨ x < 0) := by
    push_neg
    exact ⟨h1, h0⟩
  refine ⟨?_, ?_, ?_⟩
  · intro hx
    subst hx
    simp [SmartEMDriver.send_decision, hc, hrange]
  · intro hx
    subst hx
    simp [SmartEMDriver.send_decision, hc, hrange]
  · intro hx0 hx1
    simp [SmartEMDriver.send_decision, hc, hrange, hx0, hx1]

/-- C4 witness: a connected driver with serial "S" and ratio 1/2 publishes
mode "14" then dimmer value 50. -/
theorem send_decision_encoding_witness :
    SmartEMDriver.send_decision ⟨"S", true⟩ (PyVal.num (1/2)) =
      (⟨"S", true⟩, Except.ok [Publish.pubStr "S/SETMODE" "14",
                               Publish.pubNum "S/DIMMER1" 50]) := by
  have h := (send_decision_encoding ⟨"S", true⟩ (1/2) rfl (by norm_num) (by norm_num)).2.2
    (by norm_num) (by norm_num)
  rw [h]
  norm_num
  exact ⟨rfl, rfl⟩

/-- C5 counterexample: the claim quantifies over every reference driver,
but a disconnected driver swallows both invalid inputs silently — the call
returns without raising and without publishing (ratio 3/2 yields no
`ValueError`, the string "x" yields no `TypeError`). -/
theorem send_decision_validation_cex :
    SmartEMDriver.send_decision ⟨"S", false⟩ (PyVal.num (3/2)) = (⟨"S", false⟩, Except.ok [])
    ∧ SmartEMDriver.send_decision ⟨"S", false⟩ (PyVal.str "x") ≠
        (⟨"S", false⟩, Except.error SendError.typeError) := by
  refine ⟨rfl, ?_⟩
  simp [SmartEMDriver.send_decision]

/-- C5 (amended): for every CONNECTED reference driver, an out-of-range
numeric ratio raises `ValueError`, a non-numeric value raises `TypeError`,
and the connection state is unchanged by the call. -/
theorem send_decision_validation (d : SmartEMDriver) (hc : d.connexion = true) :
    (∀ x : ℚ, (1 < x ∨ x < 0) → d.send_decision (PyVal.num x) =
        (d, Except.error SendError.valueError))
    ∧ (∀ t : String, d.send_decision (PyVal.str t) =
        (d, Except.error SendError.typeError)) := by
  constructor
  · intro x hx
    simp [SmartEMDriver.send_decision, hc, hx]
  · intro t
    simp [SmartEMDriver.send_decision, hc]

/-- C5 witness: for the connected driver with serial "S", ratio 3/2 raises
`ValueError` and the string "x" raises `TypeError`; the returned driver
state is the unchanged input state in both cases. -/
theorem send_decision_validation_witness :
    SmartEMDriver.send_decision ⟨"S", true⟩ (PyVal.num (3/2)) =
      (⟨"S", true⟩, Except.error SendError.valueError)
    ∧ SmartEMDriver.send_decision ⟨"S", true⟩ (PyVal.str "x") =
      (⟨"S", true⟩, Except.error SendError.typeError) :=
  ⟨(send_decision_validation ⟨"S", true⟩ rfl).1 (3/2) (by norm_num),
   (send_decision_validation ⟨"S", true⟩ rfl).2 "x"⟩

/-- C10: whenever the reference driver is not connected, `send_decision`
returns without raising and without publishing, for every argument
whatsoever — the connection check precedes type and range validation. -/
theorem send_decision_disconnected (d : SmartEMDriver) (v : PyVal)
    (hc : d.connexion = false) :
    d.send_decision v = (d, Except.ok []) := by
  simp [SmartEMDriver.send_decision, hc]

/-- C10 witness: a disconnected driver silently accepts both the
out-of-range ratio 3/2 and the non-numeric string "x". -/
theorem send_decision_disconnected_witness :
    SmartEMDriver.send_decision ⟨"SD", false⟩ (PyVal.num (3/2)) = (⟨"SD", false⟩, Except.ok [])
    ∧ SmartEMDriver.send_decision ⟨"SD", false⟩ (PyVal.str "x") = (⟨"SD", false⟩, Except.ok []) :=
  ⟨send_decision_disconnected ⟨"SD", false⟩ (PyVal.num (3/2)) rfl,
   send_decision_disconnected ⟨"SD", false⟩ (PyVal.str "x") rfl⟩

/-- C6: for every reference driver with a non-empty serial,
`dict_to_device (device_to_dict d)` reconstructs a driver, and its
serialized form equals `d`'s serialized form. -/
theorem driver_serialization_roundtrip (d : SmartEMDriver) (h : d.serial ≠ "") :
    SmartEMDriver.dict_to_device d.device_to_dict =
      Except.ok { serial := d.serial, connexion := false }
    ∧ Except.map SmartEMDriver.device_to_dict (SmartEMDriver.dict_to_device d.device_to_dict)
        = Except.ok d.device_to_dict := by
  constructor
  · simp [SmartEMDriver.dict_to_device, SmartEMDriver.init, SmartEMDriver.device_to_dict, h]
  · simp [SmartEMDriver.dict_to_device, SmartEMDriver.init, SmartEMDriver.device_to_dict, h,
      Except.map]

/-- C6 witness: round-trip at the driver with serial "PVROUTER001". -/
theorem driver_serialization_roundtrip_witness :
    SmartEMDriver.dict_to_device (SmartEMDriver.device_to_dict ⟨"PVROUTER001", true⟩) =
      Except.ok ⟨"PVROUTER001", false⟩
    ∧ Except.map SmartEMDriver.device_to_dict
        (SmartEMDriver.dict_to_device (SmartEMDriver.device_to_dict ⟨"PVROUTER001", true⟩))
        = Except.ok (SmartEMDriver.device_to_dict ⟨"PVROUTER001", true⟩) :=
  driver_serialization_roundtrip ⟨"PVROUTER001", true⟩ (by decide)

/-! ## Claims about the endpoint decision pipeline -/

/-- C3: `is_ready` is true iff `last_temperature` and `production_forecast`
are both set; `last_power` and `last_production` (and all timestamps) play
no role; and whenever `is_ready` is false, `process()` returns without
invoking the solver and without calling `driver.send_decision` (no tick
effects at all). -/
theorem is_ready_process_guard (c : Client) (solver : Except Unit (List ℚ)) :
    (c.is_ready = true ↔ (c.last_temperature ≠ none ∧ c.production_forecast ≠ none))
    ∧ (∀ pw pwt pr prt,
        ({ c with last_power := pw, last_power_time := pwt,
                  last_production := pr, last_production_time := prt } : Client).is_ready
          = c.is_ready)
    ∧ (c.is_ready = false → c.process solver = []) := by
  refine ⟨?_, ?_, ?_⟩
  · simp [Client.is_ready, Option.isSome_iff_ne_none]
  · intro pw pwt pr prt
    simp [Client.is_ready]
  · intro h
    simp [Client.process, h]

/-- C3 witness (the spec's own scenario): an endpoint with temperature set
but `production_forecast = None` is not ready and its `process()` performs
no solver call and no driver call. -/
theorem is_ready_process_guard_witness :
    ({ client_id := 7, client_engine := (), client_weather := ⟨⟨0, 0⟩⟩,
       driver := ⟨"S", true⟩, last_temperature := some 20,
       last_temperature_time := some 0, last_production := none,
       last_production_time := none, last_power := none, last_power_time := none,
       production_forecast := none } : Client).process (Except.ok [1/2]) = [] :=
  (is_ready_process_guard _ (Except.ok [1/2])).2.2 rfl

/-! ## Claims about the periodic orchestrator tasks -/

/-- C9: each periodic task sleeps `max(period - execution time, 0)` after
an iteration, so when the iteration fits in the period the next trigger is
`previous_trigger + period` (not `now + period`); the stop signal is
observed between iterations (an iteration due after the stop instant never
starts) and during the sleep (the wait ends exactly at the stop instant
instead of blocking the full period). -/
theorem periodic_task_schedule (P t e s : ℚ) (he : 0 ≤ e) (heP : e ≤ P) :
    runnerNextCheck P t e none = t + P
    ∧ runnerNextCheck P t e none = t + e + max (P - e) 0
    ∧ (∀ es : List ℚ, s ≤ t → runnerStarts P (some s) es t = [])
    ∧ (t + e ≤ s → s ≤ t + P → runnerNextCheck P t e (some s) = s) := by
  have hsl : taskSleep P e = P - e := by
    simp [taskSleep]
    linarith
  refine ⟨?_, ?_, ?_, ?_⟩
  · simp only [runnerNextCheck, hsl]
    ring
  · simp [runnerNextCheck, taskSleep]
  · intro es hst
    cases es with
    | nil => simp [runnerStarts]
    | cons x xs => simp [runnerStarts, stopSet, hst]
  · intro h1 h2
    have hw : eventWait (taskSleep P e) (s - (t + e)) = s - (t + e) := by
      rw [hsl]
      simp only [eventWait]
      rw [max_eq_left (by linarith)]
      exact min_eq_right (by linarith)
    simp [runnerNextCheck, hw]

/-- C9 witness: period 10, execution time 3 starting at t = 0 — the next
trigger without a stop is at 10 = 0 + 10, the sleep is max(10-3,0); with a
stop signal at instant 20 no iteration starts at t = 25, and a stop at
instant 5 (during the sleep that follows the iteration [0,3]) ends the wait
at 5. -/
theorem periodic_task_schedule_witness :
    runnerNextCheck 10 0 3 none = 0 + 10
    ∧ runnerNextCheck 10 0 3 none = 0 + 3 + max (10 - 3) 0
    ∧ runnerStarts 10 (some 20) [3] 25 = []
    ∧ runnerNextCheck 10 0 3 (some 5) = 5 := by
  have h25 := periodic_task_schedule 10 25 3 20 (by norm_num) (by norm_num)
  have h5 := periodic_task_schedule 10 0 3 5 (by norm_num) (by norm_num)
  exact ⟨h5.1, h5.2.1, h25.2.2.1 [3] (by norm_num), h5.2.2.2 (by norm_num) (by norm_num)⟩

/-! ## Claims about the fleet registry -/

/-- A sample client used by the registry witnesses. -/
def sampleClient (id : Int) (lat lon : ℝ) : Client :=
  { client_id := id, client_engine := (), client_weather := ⟨⟨lat, lon⟩⟩,
    driver := ⟨"S", false⟩, last_temperature := none, last_temperature_time := none,
    last_production := none, last_production_time := none,
    last_power := none, last_power_time := none, production_forecast := none }

/-- C2: registering an endpoint whose id equals an already-registered id
raises `ClientAlreadyExists` and leaves the registry completely unchanged
(`list_of_clients`, `clients_with_leaders` and `leaders` are those of the
pre-state). -/
theorem add_duplicate_id (θ : ℝ) (s : AllClients) (c : Client)
    (h : ∃ x ∈ s.list_of_clients, x.client_id = c.client_id) :
    AllClients.add θ s c = (s, some AddError.clientAlreadyExists) := by
  obtain ⟨x, hx, hid⟩ := h
  have hany : s.list_of_clients.any (fun clt => clt.client_id == c.client_id) = true := by
    rw [List.any_eq_true]
    exact ⟨x, hx, by simp [hid]⟩
  simp [AllClients.add, hany]

/-- C2 witness: re-registering id 5 (even at a different position) fails
with `ClientAlreadyExists` and returns the registry unchanged. -/
theorem add_duplicate_id_witness :
    AllClients.add 1
      ⟨[sampleClient 5 0 0], [(sampleClient 5 0 0, sampleClient 5 0 0)],
       [sampleClient 5 0 0], none⟩ (sampleClient 5 40 3) =
    (⟨[sampleClient 5 0 0], [(sampleClient 5 0 0, sampleClient 5 0 0)],
      [sampleClient 5 0 0], none⟩, some AddError.clientAlreadyExists) :=
  add_duplicate_id 1 _ _ ⟨sampleClient 5 0 0, List.mem_singleton.mpr rfl, rfl⟩

/-- CPython's `min` with a key function over `b :: xs` keeps the current
best on ties, so the result is the FIRST list element attaining the global
minimum: either the seed `b` (when nothing beats it strictly), or an
element of `xs` that strictly beats `b` and every element before it, and
is not beaten by anything after it. -/
theorem pickMin_spec {α : Type} (f : α → ℝ) :
    ∀ (xs : List α) (b : α),
      (pickMin f b xs = b ∧ ∀ y ∈ xs, f b ≤ f y)
      ∨ (∃ pre post, xs = pre ++ pickMin f b xs :: post ∧
          f (pickMin f b xs) < f b ∧
          (∀ y ∈ pre, f (pickMin f b xs) < f y) ∧
          (∀ y ∈ post, f (pickMin f b xs) ≤ f y)) := by
  intro xs
  induction xs with
  | nil =>
    intro b
    left
    exact ⟨rfl, by simp⟩
  | cons y ys ih =>
    intro b
    by_cases h : f y < f b
    · have hred : pickMin f b (y :: ys) = pickMin f y ys := by
        simp [pickMin, h]
      rw [hred]
      rcases ih y with ⟨heq, hall⟩ | ⟨pre, post, hsplit, hlt, hpre, hpost⟩
      · right
        refine ⟨[], ys, by rw [heq, List.nil_append], by rw [heq]; exact h, by simp, ?_⟩
        intro z hz
        rw [heq]
        exact hall z hz
      · right
        refine ⟨y :: pre, post, by rw [List.cons_append, ← hsplit], hlt.trans h, ?_, hpost⟩
        intro z hz
        rcases List.mem_cons.mp hz with hz | hz
        · rw [hz]
          exact hlt
        · exact hpre z hz
    · have hred : pickMin f b (y :: ys) = pickMin f b ys := by
        simp [pickMin, h]
      rw [hred]
      rcases ih b with ⟨heq, hall⟩ | ⟨pre, post, hsplit, hlt, hpre, hpost⟩
      · left
        refine ⟨heq, ?_⟩
        intro z hz
        rcases List.mem_cons.mp hz with hz | hz
        · rw [hz]
          exact le_of_not_lt h
        · exact hall z hz
      · right
        refine ⟨y :: pre, post, by rw [List.cons_append, ← hsplit], hlt, ?_, hpost⟩
        intro z hz
        rcases List.mem_cons.mp hz with hz | hz
        · rw [hz]
          exact hlt.trans_le (le_of_not_lt h)
        · exact hpre z hz

/-- The result of Python's `min` over a non-empty list splits the list
into a strictly-greater prefix and a no-smaller suffix. -/
theorem pickMin_split {α : Type} (f : α → ℝ) (l : α) (ls : List α) :
    ∃ pre post, l :: ls = pre ++ pickMin f l ls :: post ∧
      (∀ y ∈ pre, f (pickMin f l ls) < f y) ∧
      (∀ y ∈ post, f (pickMin f l ls) ≤ f y) := by
  rcases pickMin_spec f ls l with ⟨heq, hall⟩ | ⟨pre, post, hsplit, hlt, hpre, hpost⟩
  · refine ⟨[], ls, by rw [heq, List.nil_append], by simp, ?_⟩
    intro z hz
    rw [heq]
    exact hall z hz
  · refine ⟨l :: pre, post, by rw [List.cons_append, ← hsplit], ?_, hpost⟩
    intro z hz
    rcases List.mem_cons.mp hz with hz | hz
    · rw [hz]
      exact hlt
    · exact hpre z hz

/-- The result of Python's `min` attains the global minimum of the key. -/
theorem pickMin_le {α : Type} (f : α → ℝ) (l : α) (ls : List α) :
    ∀ y ∈ l :: ls, f (pickMin f l ls) ≤ f y := by
  obtain ⟨pre, post, hsplit, hpre, hpost⟩ := pickMin_split f l ls
  intro y hy
  rw [hsplit] at hy
  rcases List.mem_append.mp hy with hy | hy
  · exact le_of_lt (hpre y hy)
  · rcases List.mem_cons.mp hy with hy | hy
    · rw [hy]
    · exact hpost y hy

/-- There is at most one way to split a list into a strictly-greater
prefix, a distinguished element, and a no-smaller suffix: the element is
the first one attaining the global minimum. -/
theorem firstMin_unique {α : Type} (f : α → ℝ) :
    ∀ (pre1 : List α) (a : α) (post1 pre2 : List α) (b : α) (post2 : List α),
      pre1 ++ a :: post1 = pre2 ++ b :: post2 →
      (∀ y ∈ pre1, f a < f y) → (∀ y ∈ post1, f a ≤ f y) →
      (∀ y ∈ pre2, f b < f y) → (∀ y ∈ post2, f b ≤ f y) → a = b := by
  intro pre1
  induction pre1 with
  | nil =>
    intro a post1 pre2 b post2 heq hpre1 hpost1 hpre2 hpost2
    cases pre2 with
    | nil =>
      simp only [List.nil_append, List.cons.injEq] at heq
      exact heq.1
    | cons c pre2' =>
      simp only [List.nil_append, List.cons_append, List.cons.injEq] at heq
      have hb1 : b ∈ post1 := by
        rw [heq.2]
        exact List.mem_append.mpr (Or.inr (List.mem_cons_self b post2))
      have h1 : f a ≤ f b := hpost1 b hb1
      have h2 : f b < f a := hpre2 a (by rw [heq.1]; exact List.mem_cons_self c pre2')
      linarith
  | cons c pre1' ih =>
    intro a post1 pre2 b post2 heq hpre1 hpost1 hpre2 hpost2
    cases pre2 with
    | nil =>
      simp only [List.nil_append, List.cons_append, List.cons.injEq] at heq
      have ha2 : a ∈ post2 := by
        rw [← heq.2]
        exact List.mem_append.mpr (Or.inr (List.mem_cons_self a post1))
      have h1 : f b ≤ f a := hpost2 a ha2
      have h2 : f a < f b := by
        have hc := hpre1 c (List.mem_cons_self c pre1')
        rwa [heq.1] at hc
      linarith
    | cons d pre2' =>
      simp only [List.cons_append, List.cons.injEq] at heq
      exact ih a post1 pre2' b post2 heq.2
        (fun y hy => hpre1 y (List.mem_cons_of_mem c hy))
        hpost1
        (fun y hy => hpre2 y (List.mem_cons_of_mem d hy))
        hpost2

/-- `_closest_leader` with no leaders returns `None` (all_clients.py:178-180). -/
theorem closest_leader_nil (θ : ℝ) (s : AllClients) (c : Client)
    (h : s.leaders = []) : s.closest_leader θ c = none := by
  rw [AllClients.closest_leader, h]

/-- `_closest_leader` with leaders `l :: ls` returns the minimum-distance
leader when its distance is below the threshold, else `None`. -/
theorem closest_leader_cons (θ : ℝ) (s : AllClients) (c : Client)
    (l : Client) (ls : List Client) (h : s.leaders = l :: ls) :
    s.closest_leader θ c =
      (if dist_km c (pickMin (fun x => dist_km c x) l ls) < θ
       then some (pickMin (fun x => dist_km c x) l ls) else none) := by
  rw [AllClients.closest_leader, h]

/-- Characterization of `_closest_leader`: it returns `some L` exactly when
`L` occurs in the leaders list with every earlier leader strictly farther,
no later leader strictly closer, and `L`'s distance strictly below the
threshold. -/
theorem closest_leader_iff (θ : ℝ) (s : AllClients) (c : Client) (L : Client) :
    s.closest_leader θ c = some L ↔
      ∃ pre post, s.leaders = pre ++ L :: post ∧ dist_km c L < θ ∧
        (∀ y ∈ pre, dist_km c L < dist_km c y) ∧
        (∀ y ∈ post, dist_km c L ≤ dist_km c y) := by
  constructor
  · intro h
    cases hl : s.leaders with
    | nil =>
      rw [closest_leader_nil θ s c hl] at h
      cases h
    | cons l ls =>
      rw [closest_leader_cons θ s c l ls hl] at h
      by_cases hd : dist_km c (pickMin (fun x => dist_km c x) l ls) < θ
      · rw [if_pos hd] at h
        obtain ⟨pre, post, hsplit, hpre, hpost⟩ := pickMin_split (fun x => dist_km c x) l ls
        have hL : pickMin (fun x => dist_km c x) l ls = L := by
          injection h
        rw [hL] at hsplit hd hpre hpost
        exact ⟨pre, post, hsplit, hd, hpre, hpost⟩
      · rw [if_neg hd] at h
        cases h
  · rintro ⟨pre, post, hsplit, hdlt, hpre, hpost⟩
    cases hl : s.leaders with
    | nil =>
      rw [hl] at hsplit
      have := congrArg List.length hsplit
      simp at this
      omega
    | cons l ls =>
      rw [hl] at hsplit
      obtain ⟨pre2, post2, hsplit2, hpre2, hpost2⟩ := pickMin_split (fun x => dist_km c x) l ls
      have hLmem : L ∈ l :: ls := by
        rw [hsplit]
        exact List.mem_append.mpr (Or.inr (List.mem_cons_self L post))
      have hminle : dist_km c (pickMin (fun x => dist_km c x) l ls) ≤ dist_km c L :=
        pickMin_le (fun x => dist_km c x) l ls L hLmem
      have heqLB : L = pickMin (fun x => dist_km c x) l ls :=
        firstMin_unique (fun x => dist_km c x) pre L post pre2
          (pickMin (fun x => dist_km c x) l ls) post2
          (by rw [← hsplit, ← hsplit2]) hpre hpost hpre2 hpost2
      rw [closest_leader_cons θ s c l ls hl, if_pos (lt_of_le_of_lt hminle hdlt), ← heqLB]

/-- C1: when registration succeeds, the endpoint `c` is assigned to a
leader `L` iff `L` is the current leader minimizing haversine distance
(Earth radius 6371 km) to `c` with that minimum strictly below the
configured threshold (whose default `MINIMAL_DISTANCE` is 1.0 km), ties
broken by the first leader in iteration order (every earlier leader is
strictly farther); otherwise `c` becomes its own leader and is appended to
the leaders list. -/
theorem add_leader_assignment (θ : ℝ) (s : AllClients) (c : Client)
    (h : (AllClients.add θ s c).2 = none) :
    AllClients.MINIMAL_DISTANCE = 1
    ∧ (∀ L, s.closest_leader θ c = some L ↔
        ∃ pre post, s.leaders = pre ++ L :: post ∧ dist_km c L < θ ∧
          (∀ y ∈ pre, dist_km c L < dist_km c y) ∧
          (∀ y ∈ post, dist_km c L ≤ dist_km c y))
    ∧ ((∃ L, s.closest_leader θ c = some L ∧
          (AllClients.add θ s c).1 =
            { s with list_of_clients := s.list_of_clients ++ [c],
                     clients_with_leaders := s.clients_with_leaders ++ [(c, L)] })
      ∨ (s.closest_leader θ c = none ∧
          (AllClients.add θ s c).1 =
            { s with list_of_clients := s.list_of_clients ++ [c],
                     clients_with_leaders := s.clients_with_leaders ++ [(c, c)],
                     leaders := s.leaders ++ [c] })) := by
  have hdup : s.list_of_clients.any (fun clt => clt.client_id == c.client_id) = false := by
    rcases Bool.eq_false_or_eq_true
        (s.list_of_clients.any (fun clt => clt.client_id == c.client_id)) with hb | hb
    · rw [AllClients.add, if_pos hb] at h
      cases h
    · exact hb
  refine ⟨by norm_num [AllClients.MINIMAL_DISTANCE], fun L => closest_leader_iff θ s c L, ?_⟩
  cases hcl : s.closest_leader θ c with
  | some L =>
    left
    refine ⟨L, rfl, ?_⟩
    rw [AllClients.add, if_neg (by simp [hdup]), hcl]
  | none =>
    right
    refine ⟨rfl, ?_⟩
    rw [AllClients.add, if_neg (by simp [hdup]), hcl]

/-- C1 witness: registering an endpoint into the empty registry makes it
its own leader and appends it to the leaders list. -/
theorem add_leader_assignment_witness :
    (AllClients.add 1 ⟨[], [], [], none⟩ (sampleClient 3 0 0)).1.leaders = [sampleClient 3 0 0]
    ∧ (AllClients.add 1 ⟨[], [], [], none⟩ (sampleClient 3 0 0)).1.clients_with_leaders
        = [(sampleClient 3 0 0, sampleClient 3 0 0)] := by
  have h := add_leader_assignment 1 ⟨[], [], [], none⟩ (sampleClient 3 0 0) rfl
  have hnone : AllClients.closest_leader 1 ⟨[], [], [], none⟩ (sampleClient 3 0 0) = none :=
    closest_leader_nil 1 _ _ rfl
  rcases h.2.2 with ⟨L, hL, _⟩ | ⟨_, hstate⟩
  · rw [hnone] at hL
    cases hL
  · rw [hstate]
    exact ⟨rfl, rfl⟩

/-- Assigning to a key already present in a Python dict keeps the key list
unchanged. -/
theorem dictInsert_keys_of_mem (d : List (Int × Forecast)) (k : Int) (v : Forecast)
    (hany : d.any (fun p => p.1 == k) = true) :
    (dictInsert d k v).map Prod.fst = d.map Prod.fst := by
  rw [dictInsert, if_pos hany, List.map_map]
  refine List.map_congr_left ?_
  intro p hp
  by_cases hk : p.1 == k
  · have : p.1 = k := by simpa using hk
    simp [Function.comp, hk, this]
  · simp [Function.comp, hk]

/-- Assigning to a fresh key appends it to a Python dict's key list. -/
theorem dictInsert_keys_of_not_mem (d : List (Int × Forecast)) (k : Int) (v : Forecast)
    (hany : d.any (fun p => p.1 == k) = false) :
    (dictInsert d k v).map Prod.fst = d.map Prod.fst ++ [k] := by
  rw [dictInsert, if_neg (by simp [hany]), List.map_append]
  rfl

/-- Membership in a Python dict's key list after an assignment. -/
theorem dictInsert_keys_mem (d : List (Int × Forecast)) (k : Int) (v : Forecast) (q : Int) :
    q ∈ (dictInsert d k v).map Prod.fst ↔ q ∈ d.map Prod.fst ∨ q = k := by
  rcases Bool.eq_false_or_eq_true (d.any (fun p => p.1 == k)) with hany | hany
  · rw [dictInsert_keys_of_mem d k v hany]
    constructor
    · exact Or.inl
    · rintro (hq | rfl)
      · exact hq
      · obtain ⟨p, hp, hpk⟩ := List.any_eq_true.mp hany
        have hpq : p.1 = q := by simpa using hpk
        exact hpq ▸ List.mem_map.mpr ⟨p, hp, rfl⟩
  · rw [dictInsert_keys_of_not_mem d k v hany]
    simp

/-- Python dict assignment preserves key uniqueness. -/
theorem dictInsert_keys_nodup (d : List (Int × Forecast)) (k : Int) (v : Forecast)
    (h : (d.map Prod.fst).Nodup) : ((dictInsert d k v).map Prod.fst).Nodup := by
  rcases Bool.eq_false_or_eq_true (d.any (fun p => p.1 == k)) with hany | hany
  · rw [dictInsert_keys_of_mem d k v hany]
    exact h
  · rw [dictInsert_keys_of_not_mem d k v hany]
    have hk : k ∉ d.map Prod.fst := by
      intro hmem
      obtain ⟨p, hp, hpk⟩ := List.mem_map.mp hmem
      have hpt : d.any (fun p => p.1 == k) = true :=
        List.any_eq_true.mpr ⟨p, hp, by simp [hpk]⟩
      rw [hany] at hpt
      cases hpt
    simp [List.nodup_append, h, hk]

/-- The per-leader accumulation loop of `update_forecasts`
(all_clients.py:230-237), with the external per-leader fetch outcome `g`.
The loop body is that of `AllClients.update_forecasts`. -/
def forecastFold (g : Client → Option Forecast) (ls : List Client)
    (d0 : List (Int × Forecast)) : List (Int × Forecast) :=
  ls.foldl
    (fun d leader =>
      match g leader with
      | some forecast => dictInsert d leader.client_id forecast
      | none => d) d0

/-- One step of the accumulation loop when the fetch for the first leader
fails: its dict entry is simply skipped. -/
theorem forecastFold_cons_none (g : Client → Option Forecast) (l : Client) (ls : List Client)
    (d0 : List (Int × Forecast)) (hg : g l = none) :
    forecastFold g (l :: ls) d0 = forecastFold g ls d0 := by
  show forecastFold g ls
    (match g l with
     | some forecast => dictInsert d0 l.client_id forecast
     | none => d0) = forecastFold g ls d0
  rw [hg]

/-- One step of the accumulation loop when the fetch for the first leader
succeeds: its forecast is inserted under its id. -/
theorem forecastFold_cons_some (g : Client → Option Forecast) (l : Client) (ls : List Client)
    (d0 : List (Int × Forecast)) (f : Forecast) (hg : g l = some f) :
    forecastFold g (l :: ls) d0 = forecastFold g ls (dictInsert d0 l.client_id f) := by
  show forecastFold g ls
    (match g l with
     | some forecast => dictInsert d0 l.client_id forecast
     | none => d0) = forecastFold g ls (dictInsert d0 l.client_id f)
  rw [hg]

/-- The accumulation loop preserves key uniqueness. -/
theorem forecastFold_keys_nodup (g : Client → Option Forecast) :
    ∀ (ls : List Client) (d0 : List (Int × Forecast)),
      (d0.map Prod.fst).Nodup → ((forecastFold g ls d0).map Prod.fst).Nodup := by
  intro ls
  induction ls with
  | nil =>
    intro d0 h
    exact h
  | cons l ls ih =>
    intro d0 h
    cases hg : g l with
    | none =>
      rw [forecastFold_cons_none g l ls d0 hg]
      exact ih d0 h
    | some f =>
      rw [forecastFold_cons_some g l ls d0 f hg]
      exact ih _ (dictInsert_keys_nodup d0 l.client_id f h)

/-- A key is in the accumulated dict iff it was already there or some
listed leader has that id and a successful fetch. -/
theorem forecastFold_keys_mem (g : Client → Option Forecast) :
    ∀ (ls : List Client) (d0 : List (Int × Forecast)) (k : Int),
      k ∈ (forecastFold g ls d0).map Prod.fst ↔
        k ∈ d0.map Prod.fst ∨ ∃ l ∈ ls, l.client_id = k ∧ (g l).isSome = true := by
  intro ls
  induction ls with
  | nil =>
    intro d0 k
    simp [forecastFold]
  | cons l ls ih =>
    intro d0 k
    cases hg : g l with
    | none =>
      rw [forecastFold_cons_none g l ls d0 hg, ih]
      constructor
      · rintro (h | ⟨l', hl', hidl, hs⟩)
        · exact Or.inl h
        · exact Or.inr ⟨l', List.mem_cons_of_mem l hl', hidl, hs⟩
      · rintro (h | ⟨l', hl', hidl, hs⟩)
        · exact Or.inl h
        · rcases List.mem_cons.mp hl' with rfl | hl''
          · rw [hg] at hs
            cases hs
          · exact Or.inr ⟨l', hl'', hidl, hs⟩
    | some f =>
      rw [forecastFold_cons_some g l ls d0 f hg, ih, dictInsert_keys_mem]
      constructor
      · rintro ((h | rfl) | ⟨l', hl', hidl, hs⟩)
        · exact Or.inl h
        · exact Or.inr ⟨l, List.mem_cons_self l ls, rfl, by rw [hg]; rfl⟩
        · exact Or.inr ⟨l', List.mem_cons_of_mem l hl', hidl, hs⟩
      · rintro (h | ⟨l', hl', hidl, hs⟩)
        · exact Or.inl (Or.inl h)
        · rcases List.mem_cons.mp hl' with rfl | hl''
          · exact Or.inl (Or.inr hidl.symm)
          · exact Or.inr ⟨l', hl'', hidl, hs⟩

/-- C7: after `update_forecasts`, the refreshed cache exists, its keys are
unique, every key is the id of a current leader, and a leader's id is
present exactly when its own fetch succeeded — so one leader's failure
leaves that leader absent without preventing any other leader's fetch.
(The hypothesis that current leader ids are distinct is the registry
invariant established by `add`.) -/
theorem update_forecasts_isolation (now : Nat) (fetch : Client → Nat → Nat → Option Forecast)
    (s : AllClients) (hid : (s.leaders.map (fun l => l.client_id)).Nodup) :
    ∃ d, (AllClients.update_forecasts now fetch s).weather_infos = some d ∧
      (d.map Prod.fst).Nodup ∧
      (∀ k, k ∈ d.map Prod.fst → k ∈ s.leaders.map (fun l => l.client_id)) ∧
      (∀ l ∈ s.leaders,
        (l.client_id ∈ d.map Prod.fst ↔
          (fetch l (pydate now) (pydate now + 2)).isSome = true)) := by
  refine ⟨forecastFold (fun x => fetch x (pydate now) (pydate now + 2)) s.leaders [],
    rfl, forecastFold_keys_nodup _ s.leaders [] (by simp), ?_, ?_⟩
  · intro k hk
    rw [forecastFold_keys_mem] at hk
    rcases hk with hk | ⟨l, hl, hidl, _⟩
    · simp at hk
    · exact List.mem_map.mpr ⟨l, hl, hidl⟩
  · intro l hl
    rw [forecastFold_keys_mem]
    constructor
    · rintro (h | ⟨l', hl', hidl, hs⟩)
      · simp at h
      · have hll : l' = l := List.inj_on_of_nodup_map hid hl' hl hidl
        rw [← hll]
        exact hs
    · intro hs
      exact Or.inr ⟨l, hl, rfl, hs⟩

/-- The per-leader fetch outcome used by the C7 witness: the fetch for
leader id 1 raises, every other fetch succeeds. -/
def witnessFetch : Client → Nat → Nat → Option Forecast :=
  fun l _ _ => if l.client_id == 1 then none else some []

/-- The registry used by the C7 witness: two leaders with ids 1 and 2. -/
def witnessRegistry : AllClients :=
  ⟨[sampleClient 1 0 0, sampleClient 2 50 50],
   [(sampleClient 1 0 0, sampleClient 1 0 0), (sampleClient 2 50 50, sampleClient 2 50 50)],
   [sampleClient 1 0 0, sampleClient 2 50 50], none⟩

/-- C7 witness: with leaders 1 and 2, where the fetch for leader 1 fails
and the fetch for leader 2 succeeds, the refreshed cache has unique keys,
only leader keys, no entry for leader 1 and an entry for leader 2. -/
theorem update_forecasts_isolation_witness :
    ∃ d, (AllClients.update_forecasts 0 witnessFetch witnessRegistry).weather_infos = some d ∧
      (d.map Prod.fst).Nodup ∧
      (∀ k, k ∈ d.map Prod.fst → k ∈ witnessRegistry.leaders.map (fun l => l.client_id)) ∧
      (∀ l ∈ witnessRegistry.leaders,
        (l.client_id ∈ d.map Prod.fst ↔
          (witnessFetch l (pydate 0) (pydate 0 + 2)).isSome = true)) :=
  update_forecasts_isolation 0 witnessFetch witnessRegistry (by decide)

/-- C8 (amended): `update_forecasts` requests every leader's forecast over
the window `[today, today + 2 days]` of CALENDAR DATES, where `today` is
the current date: the window starts at the midnight opening the current
day (at or before `now`, strictly less than one day before), and ends
exactly 48 hours after that midnight — not at `now` itself. -/
theorem update_forecasts_window (now : Nat) (fetch : Client → Nat → Nat → Option Forecast)
    (s : AllClients) :
    AllClients.update_forecasts now fetch s =
      { s with weather_infos := some (forecastFold
          (fun l => fetch l (forecast_window now).1 (forecast_window now).2) s.leaders []) }
    ∧ forecast_window now = (pydate now, pydate now + 2)
    ∧ 86400 * (forecast_window now).1 ≤ now
    ∧ now < 86400 * (forecast_window now).1 + 86400
    ∧ 86400 * (forecast_window now).2 = 86400 * (forecast_window now).1 + 172800 := by
  refine ⟨rfl, rfl, ?_, ?_, ?_⟩ <;> simp [forecast_window, pydate] <;> omega

/-- C8 counterexample: at current time 3600 s past midnight, the window the
code hands to the weather fetch is the date pair (day 0, day 2) — recorded
here by a fetch that stores its two date arguments as the keys of the
returned series.  Its start instant is second 0 ≠ 3600 (the fetch interval
does not start at the current time) and its end instant is second
86400 * 2 = 172800 ≠ 3600 + 172800 (it does not end exactly 48 hours after
the current time). -/
theorem update_forecasts_window_cex :
    (AllClients.update_forecasts 3600 (fun _ a b => some [(a, 0), (b, 0)])
        ⟨[], [], [sampleClient 1 0 0], none⟩).weather_infos
      = some [(1, [(0, 0), (2, 0)])]
    ∧ 86400 * 0 ≠ 3600
    ∧ 86400 * 2 ≠ 3600 + 172800 := by
  refine ⟨rfl, by norm_num, by norm_num⟩
